import Mathlib

/-!
Verification development for the `image-tiny` batch image compress/crop
scripts (`src/index.js`).  The repository holds two near-duplicate
variants of one script:

* the squoosh-only variant (`compressImages`, `getOutputPath`, `main`,
  lines 1–320), in which "cropping" is realised as a stretch-resize
  preprocessing option handed to the codec; and
* the sharp + squoosh variant (`cropImage`, `compressImages`, `main`,
  lines 321–621), in which cropping is a real pixel extraction.

Machine integers of JavaScript are modelled as `Nat` (all byte counts,
pixel dimensions and counters in the scripts are small non-negative
integers; no overflow is reachable).  JavaScript `number` arithmetic on
the size-reduction formula is modelled exactly by `JsNum` (a rational
together with the IEEE special values `Infinity`, `-Infinity`, `NaN`
that the formula can produce); the rounding of finite doubles is
abstracted to exact rationals.  Exceptions become `Option`/flags, and
the per-file `try/catch` becomes explicit control flow on a record of
per-stage outcomes.
-/

/-- A JavaScript string, modelled as its list of characters. -/
abbrev JStr := List Char

/-- A filesystem path, modelled as its list of components
(the scripts only ever build paths by joining components). -/
abbrev FsPath := List JStr

/-- Raw file bytes, abstract. -/
abbrev Buffer := List Nat

/-! ## Crop geometry (sharp variant `cropImage`, src/index.js lines 450–472) -/

/-- The rectangle handed to sharp's `extract` (src/index.js lines 462–467). -/
structure CropRect where
  left : Nat
  top : Nat
  width : Nat
  height : Nat
deriving DecidableEq, Repr

/-- The crop decision of `cropImage` (src/index.js lines 455–467): given
`metadata.width` (possibly absent, `!metadata.width` also catches width 0,
which in `Nat` is subsumed by `w ≤ cropWidth`), `metadata.height` and the
configured `CONFIG.crop.width`, return `none` when the original buffer is
passed through unchanged, and `some` extraction rectangle otherwise. -/
def computeCrop (metaWidth : Option Nat) (metaHeight : Nat) (cropWidth : Nat) :
    Option CropRect :=
  match metaWidth with
  | none => none
  | some w =>
    if w ≤ cropWidth then none
    else some { left := (w - cropWidth) / 2, top := 0, width := cropWidth,
                height := metaHeight }

/-- `cropImage` itself (src/index.js lines 450–472): reads the metadata of
the input buffer, passes the buffer through unchanged when no crop is
needed, and otherwise applies the external `extract` capability with the
computed rectangle.  `meta` is sharp's metadata reader and `extract` its
extraction operation, both external capabilities abstracted as functions. -/
def cropImage (meta : Buffer → Option Nat × Nat)
    (extract : Buffer → CropRect → Buffer) (cropWidth : Nat)
    (inputBuffer : Buffer) : Buffer :=
  match computeCrop (meta inputBuffer).1 (meta inputBuffer).2 cropWidth with
  | none => inputBuffer
  | some r => extract inputBuffer r

/-- The cropping stage of the sharp variant's per-file pipeline
(src/index.js lines 502–506): `cropImage` is consulted only when
`CONFIG.crop.enabled`, otherwise the input buffer is used as is. -/
def cropStage (meta : Buffer → Option Nat × Nat)
    (extract : Buffer → CropRect → Buffer) (cropEnabled : Bool)
    (cropWidth : Nat) (inputBuffer : Buffer) : Buffer :=
  if cropEnabled then cropImage meta extract cropWidth inputBuffer
  else inputBuffer

/-! ## Preprocessing options of the squoosh-only variant
(src/index.js lines 184–221) -/

/-- `CONFIG.cropOptions` of the squoosh-only variant (lines 52–56). -/
structure CropOptionsConfig where
  enabled : Bool
  width : Nat
  keepHeight : Bool
deriving DecidableEq, Repr

/-- `CONFIG.preprocessOptions.resize` (lines 38–42). -/
structure ResizeConfig where
  enabled : Bool
  width : Nat
  height : Nat
deriving DecidableEq, Repr

/-- `CONFIG.preprocessOptions.quant` (lines 44–48). -/
structure QuantConfig where
  enabled : Bool
  numColors : Nat
  dither : ℚ
deriving DecidableEq, Repr

/-- The configuration fields of the squoosh-only variant that feed the
preprocessing-option construction. -/
structure Config where
  cropOptions : CropOptionsConfig
  resize : ResizeConfig
  quant : QuantConfig
deriving DecidableEq, Repr

/-- The concrete `CONFIG` of the squoosh-only variant (lines 13–61). -/
def CONFIG : Config :=
  { cropOptions := { enabled := true, width := 338, keepHeight := true }
    resize := { enabled := true, width := 338, height := 280 }
    quant := { enabled := true, numColors := 128, dither := 1 } }

/-- A resize entry of the option object handed to `image.preprocess`.
The crop branch (lines 193–201) sets `method`, `fitMethod`,
`premultiply` and `linearRGB`; the plain config resize (lines 38–42)
leaves them absent, modelled as `none`. -/
structure ResizeOpts where
  enabled : Bool
  width : Nat
  height : Nat
  method : Option String
  fitMethod : Option String
  premultiply : Option Bool
  linearRGB : Option Bool
deriving DecidableEq, Repr

/-- A quant entry of the option object handed to `image.preprocess`
(lines 211–215). -/
structure QuantOpts where
  enabled : Bool
  numColors : Nat
  dither : ℚ
deriving DecidableEq, Repr

/-- The full option object handed to `image.preprocess`.  The squoosh
preprocessing interface used by the script carries only `resize` and
`quant` entries; there is no extraction entry. -/
structure PreprocessOpts where
  resize : Option ResizeOpts
  quant : Option QuantOpts
deriving DecidableEq, Repr

/-- Construction of `preprocessOpts` in the squoosh-only variant
(src/index.js lines 184–216): when cropping is enabled and the original
width strictly exceeds the target, a stretch resize to the target width
is installed (lines 188–203, the computed `left` offset is only printed,
line 203); otherwise the configured resize is used when enabled (lines
204–207); the quant entry is installed whenever enabled (lines 210–216). -/
def buildPreprocessOpts (cfg : Config) (originalWidth originalHeight : Nat) :
    PreprocessOpts :=
  let resizeOpt : Option ResizeOpts :=
    if cfg.cropOptions.enabled && decide (originalWidth > cfg.cropOptions.width) then
      some { enabled := true
             width := cfg.cropOptions.width
             height := if cfg.cropOptions.keepHeight then originalHeight
                       else cfg.resize.height
             method := some "lanczos3"
             fitMethod := some "stretch"
             premultiply := some true
             linearRGB := some true }
    else if cfg.resize.enabled then
      some { enabled := cfg.resize.enabled, width := cfg.resize.width,
             height := cfg.resize.height, method := none, fitMethod := none,
             premultiply := none, linearRGB := none }
    else none
  let quantOpt : Option QuantOpts :=
    if cfg.quant.enabled then
      some { enabled := true, numColors := cfg.quant.numColors,
             dither := cfg.quant.dither }
    else none
  { resize := resizeOpt, quant := quantOpt }

/-! ## Per-file pipeline outcomes and batch statistics
(`compressImages`, sharp variant src/index.js lines 477–568; the
squoosh-only variant lines 150–260 has the same accounting flow with the
crop stage folded into preprocessing) -/

/-- The outcome profile of one file's external operations: `readsTo` is
the size of the buffer returned by `fs.readFileSync` (or `none` when the
read throws); `cropThrows` / `preprocessThrows` / `writeThrows` record
whether `cropImage`, `image.preprocess` (including decode) and
`fs.writeFileSync` throw; `encodesTo` is the encoded size (or `none`
when encoding throws). -/
structure FileModel where
  readsTo : Option Nat
  cropThrows : Bool
  preprocessThrows : Bool
  encodesTo : Option Nat
  writeThrows : Bool
deriving DecidableEq, Repr

/-- The `stats` record of `compressImages` (src/index.js lines 478–484). -/
structure RunStats where
  total : Nat
  success : Nat
  failed : Nat
  totalInputSize : Nat
  totalOutputSize : Nat
deriving DecidableEq, Repr

/-- The body of one iteration of the `for` loop of `compressImages`
(src/index.js lines 490–565): the `try` block mutates `stats` in program
order — `totalInputSize` grows right after a successful read (line 500),
`totalOutputSize` right after a successful encode (line 546), `success`
only after a successful write (line 559) — and any throw transfers
control to the `catch`, which increments `failed` (line 563), keeping
the mutations already made. -/
def processOne (f : FileModel) (stats : RunStats) : RunStats :=
  match f.readsTo with
  | none => { stats with failed := stats.failed + 1 }
  | some inputSize =>
    let s1 := { stats with totalInputSize := stats.totalInputSize + inputSize }
    if f.cropThrows then { s1 with failed := s1.failed + 1 }
    else if f.preprocessThrows then { s1 with failed := s1.failed + 1 }
    else
      match f.encodesTo with
      | none => { s1 with failed := s1.failed + 1 }
      | some outputSize =>
        let s2 := { s1 with totalOutputSize := s1.totalOutputSize + outputSize }
        if f.writeThrows then { s2 with failed := s2.failed + 1 }
        else { s2 with success := s2.success + 1 }

/-- `compressImages` (src/index.js lines 477–568): statistics start at
`total = imageFiles.length` and zero counters (lines 478–484), and the
loop processes every file in order, never aborting (each iteration's
failures are caught inside the loop). -/
def compressImages (imageFiles : List FileModel) : RunStats :=
  imageFiles.foldl (fun stats f => processOne f stats)
    { total := imageFiles.length, success := 0, failed := 0,
      totalInputSize := 0, totalOutputSize := 0 }

/-- A file completes every stage: the `success` counter line is reached. -/
def fileSucceeds (f : FileModel) : Bool :=
  f.readsTo.isSome && !f.cropThrows && !f.preprocessThrows &&
    f.encodesTo.isSome && !f.writeThrows

/-- A file throws at some stage: the `catch` block is reached. -/
def fileFails (f : FileModel) : Bool := !(fileSucceeds f)

/-- What one file adds to `stats.totalInputSize`: its read size, counted
as soon as the read succeeds (src/index.js line 500), whether or not a
later stage fails. -/
def inContrib (f : FileModel) : Nat := f.readsTo.getD 0

/-- What one file adds to `stats.totalOutputSize`: its encoded size,
counted as soon as encoding succeeds (src/index.js line 546), whether or
not the subsequent write fails. -/
def outContrib (f : FileModel) : Nat :=
  if f.readsTo.isSome && !f.cropThrows && !f.preprocessThrows then
    f.encodesTo.getD 0
  else 0

/-- The totals the spec describes: per-file sizes summed over the fully
successful files only.  Written from the spec sentence "aggregate
input/output totals reported equal the sum of individual per-file sizes
for all successfully processed files", to be compared with what
`compressImages` computes. -/
def specSuccessInputSum (files : List FileModel) : Nat :=
  ((files.filter fileSucceeds).map inContrib).sum

/-- Companion of `specSuccessInputSum` for output bytes. -/
def specSuccessOutputSum (files : List FileModel) : Nat :=
  ((files.filter fileSucceeds).map (fun f => f.encodesTo.getD 0)).sum

/-! ## JavaScript number semantics of the size-reduction formula
(src/index.js lines 244, 554, 308–311, 609–612) -/

/-- A JavaScript `number` as far as the reduction formula can observe it:
a finite value (modelled as an exact rational) or one of the special
values produced by dividing by zero. -/
inductive JsNum where
  | num (q : ℚ)
  | posInf
  | negInf
  | nan
deriving DecidableEq, Repr

/-- JavaScript `/` on the values the formula can produce: a finite
numerator over zero gives `Infinity`/`-Infinity` by sign, `0 / 0` gives
`NaN`. -/
def jdiv : JsNum → JsNum → JsNum
  | .num a, .num b =>
      if b = 0 then (if a = 0 then .nan else if 0 < a then .posInf else .negInf)
      else .num (a / b)
  | .posInf, .num b => if 0 ≤ b then .posInf else .negInf
  | .negInf, .num b => if 0 ≤ b then .negInf else .posInf
  | .num _, .posInf => .num 0
  | .num _, .negInf => .num 0
  | _, _ => .nan

/-- JavaScript `-` extended to the special values. -/
def jsub : JsNum → JsNum → JsNum
  | .num a, .num b => .num (a - b)
  | .num _, .posInf => .negInf
  | .num _, .negInf => .posInf
  | .posInf, .num _ => .posInf
  | .negInf, .num _ => .negInf
  | .posInf, .negInf => .posInf
  | .negInf, .posInf => .negInf
  | _, _ => .nan

/-- JavaScript `*` extended to the special values. -/
def jmul : JsNum → JsNum → JsNum
  | .num a, .num b => .num (a * b)
  | .num a, .posInf => if 0 < a then .posInf else if a < 0 then .negInf else .nan
  | .num a, .negInf => if 0 < a then .negInf else if a < 0 then .posInf else .nan
  | .posInf, .num b => if 0 < b then .posInf else if b < 0 then .negInf else .nan
  | .negInf, .num b => if 0 < b then .negInf else if b < 0 then .posInf else .nan
  | .posInf, .posInf => .posInf
  | .posInf, .negInf => .negInf
  | .negInf, .posInf => .negInf
  | .negInf, .negInf => .posInf
  | _, _ => .nan

/-- The value `(1 - outputSize / inputSize) * 100` computed at
src/index.js lines 244 and 554 before display. -/
def reductionValue (inputSize outputSize : Nat) : JsNum :=
  jmul (jsub (.num 1) (jdiv (.num (outputSize : ℚ)) (.num (inputSize : ℚ))))
    (.num 100)

/-- `toFixed(2)` on a finite value: round to two decimals, ties toward
the larger candidate, as ECMAScript prescribes. -/
def toFixed2 (q : ℚ) : ℚ := (⌊q * 100 + 1 / 2⌋ : ℚ) / 100

/-- `toFixed(2)` as applied at lines 244/554: finite values are rounded,
the special values print as themselves. -/
def jsToFixed2 : JsNum → JsNum
  | .num q => .num (toFixed2 q)
  | x => x

/-- The displayed per-file reduction figure (lines 244, 554). -/
def reductionDisplay (inputSize outputSize : Nat) : JsNum :=
  jsToFixed2 (reductionValue inputSize outputSize)

/-- The aggregate savings figure of the final summary (src/index.js
lines 308–311 and 609–612): printed only under the `totalInputSize > 0`
guard, `none` when the guard suppresses the line. -/
def summarySavings (s : RunStats) : Option JsNum :=
  if 0 < s.totalInputSize then
    some (jsToFixed2 (reductionValue s.totalInputSize s.totalOutputSize))
  else none

/-! ## Output-path mapping (`getOutputPath`, src/index.js lines 135–145
and 435–445, identical in both variants) -/

/-- Length of the longest common component prefix of two paths. -/
def commonPrefixLength : FsPath → FsPath → Nat
  | a :: as, b :: bs => if a = b then commonPrefixLength as bs + 1 else 0
  | _, _ => 0

/-- Node's `path.relative` on normalized component paths: strip the
common prefix, climb out of what remains of `base` with `..` components,
then descend into the remainder of `p`.  For a path under `base` this is
simply the suffix of components. -/
def pathRelative (base p : FsPath) : FsPath :=
  let c := commonPrefixLength base p
  List.replicate (base.length - c) "..".toList ++ p.drop c

/-- Position of the last `.` in a file name, if any. -/
def lastDotPos : JStr → Option Nat
  | [] => none
  | c :: cs =>
    match lastDotPos cs with
    | some i => some (i + 1)
    | none => if c = '.' then some 0 else none

/-- `path.parse(...).ext` of a base name: the suffix from the last dot,
empty when there is no dot or the only relevant dot is the leading dot
of a dotfile. -/
def extnameOf (b : JStr) : JStr :=
  match lastDotPos b with
  | none => []
  | some 0 => []
  | some i => b.drop i

/-- `path.parse(...).name` of a base name: what precedes `extnameOf`. -/
def nameOf (b : JStr) : JStr :=
  match lastDotPos b with
  | none => b
  | some 0 => b
  | some i => b.take i

/-- `getOutputPath` (src/index.js lines 135–145 / 435–445): take the
input path relative to `CONFIG.inputDir`, parse it into directory part
and base name, substitute the extension when `customFormat` is given
(`parsed.base = parsed.name + customFormat`), and join the result onto
`CONFIG.outputDir`. -/
def getOutputPath (inputDir outputDir : FsPath) (inputPath : FsPath)
    (customFormat : Option JStr) : FsPath :=
  let relativePath := pathRelative inputDir inputPath
  let dir := relativePath.dropLast
  let base := relativePath.getLastD []
  let base2 :=
    match customFormat with
    | none => base
    | some fmt => nameOf base ++ fmt
  outputDir ++ dir ++ [base2]

/-! ## Top-level driver (`main`, src/index.js lines 265–320 and 574–621) -/

/-- The environment `main` runs against: whether `CONFIG.inputDir`
exists, whether some operation of the driver itself (directory creation
or the directory scan) throws, and the outcome profiles of the
discovered files. -/
structure World where
  inputDirExists : Bool
  driverThrows : Bool
  files : List FileModel
deriving Repr

/-- The process exit code of one run: `main` exits 1 when the input
directory is missing (line 281/583, before any scan), the top-level
`.catch` turns any error escaping `main` into exit 1 (lines 317–320 /
618–621), an empty discovery exits 0 (line 293/594), and otherwise
`compressImages` runs to completion — its per-file failures are caught
inside its loop — and the process finishes normally with exit 0. -/
def mainExit (w : World) : Nat :=
  if !w.inputDirExists then 1
  else if w.driverThrows then 1
  else if w.files.length == 0 then 0
  else
    let _ := compressImages w.files
    0

/-! ## Helper lemmas -/

theorem commonPrefixLength_append (base rel : FsPath) :
    commonPrefixLength base (base ++ rel) = base.length := by
  induction base with
  | nil => cases rel <;> simp [commonPrefixLength]
  | cons a as ih => simp [commonPrefixLength, ih]

theorem pathRelative_append (base rel : FsPath) :
    pathRelative base (base ++ rel) = rel := by
  simp [pathRelative, commonPrefixLength_append]

theorem getOutputPath_concat (inputDir outputDir ds : FsPath) (b : JStr)
    (customFormat : Option JStr) :
    getOutputPath inputDir outputDir (inputDir ++ (ds ++ [b])) customFormat =
      outputDir ++ ds ++
        [match customFormat with | none => b | some fmt => nameOf b ++ fmt] := by
  simp only [getOutputPath, pathRelative_append, List.dropLast_concat,
    List.getLastD_concat]

theorem processOne_fields (f : FileModel) (s : RunStats) :
    (processOne f s).total = s.total ∧
    (processOne f s).success = s.success + (if fileSucceeds f then 1 else 0) ∧
    (processOne f s).failed = s.failed + (if fileSucceeds f then 0 else 1) ∧
    (processOne f s).totalInputSize = s.totalInputSize + inContrib f ∧
    (processOne f s).totalOutputSize = s.totalOutputSize + outContrib f := by
  obtain ⟨r, c, p, e, w⟩ := f
  cases r <;> cases c <;> cases p <;> cases e <;> cases w <;>
    simp [processOne, fileSucceeds, inContrib, outContrib]

theorem foldl_processOne_total (files : List FileModel) (s : RunStats) :
    (files.foldl (fun stats f => processOne f stats) s).total = s.total := by
  induction files generalizing s with
  | nil => rfl
  | cons f fs ih => simp only [List.foldl_cons, ih, (processOne_fields f s).1]

theorem foldl_processOne_success (files : List FileModel) (s : RunStats) :
    (files.foldl (fun stats f => processOne f stats) s).success =
      s.success + files.countP fileSucceeds := by
  induction files generalizing s with
  | nil => simp
  | cons f fs ih =>
    simp only [List.foldl_cons, ih, (processOne_fields f s).2.1,
      List.countP_cons]
    cases h : fileSucceeds f <;> simp [h] <;> omega

theorem foldl_processOne_failed (files : List FileModel) (s : RunStats) :
    (files.foldl (fun stats f => processOne f stats) s).failed =
      s.failed + files.countP fileFails := by
  induction files generalizing s with
  | nil => simp
  | cons f fs ih =>
    simp only [List.foldl_cons, ih, (processOne_fields f s).2.2.1,
      List.countP_cons, fileFails]
    rcases Bool.eq_false_or_eq_true (fileSucceeds f) with h | h <;>
      simp [h] <;> omega

theorem foldl_processOne_inputSize (files : List FileModel) (s : RunStats) :
    (files.foldl (fun stats f => processOne f stats) s).totalInputSize =
      s.totalInputSize + (files.map inContrib).sum := by
  induction files generalizing s with
  | nil => simp
  | cons f fs ih =>
    simp only [List.foldl_cons, ih, (processOne_fields f s).2.2.2.1,
      List.map_cons, List.sum_cons]
    omega

theorem foldl_processOne_outputSize (files : List FileModel) (s : RunStats) :
    (files.foldl (fun stats f => processOne f stats) s).totalOutputSize =
      s.totalOutputSize + (files.map outContrib).sum := by
  induction files generalizing s with
  | nil => simp
  | cons f fs ih =>
    simp only [List.foldl_cons, ih, (processOne_fields f s).2.2.2.2,
      List.map_cons, List.sum_cons]
    omega

theorem countP_succeeds_add_fails (files : List FileModel) :
    files.countP fileSucceeds + files.countP fileFails = files.length := by
  induction files with
  | nil => rfl
  | cons f fs ih =>
    simp only [List.countP_cons, List.length_cons, fileFails]
    rcases Bool.eq_false_or_eq_true (fileSucceeds f) with h | h <;>
      simp [h] <;> omega

theorem lastDotPos_of_not_mem (s : JStr) (h : '.' ∉ s) : lastDotPos s = none := by
  induction s with
  | nil => rfl
  | cons c cs ih =>
    rw [List.mem_cons, not_or] at h
    simp [lastDotPos, ih h.2, Ne.symm h.1]

theorem lastDotPos_append_dot (n s : JStr) (h : '.' ∉ s) :
    lastDotPos (n ++ '.' :: s) = some n.length := by
  induction n with
  | nil => simp [lastDotPos, lastDotPos_of_not_mem s h]
  | cons c cs ih => simp [lastDotPos, ih]

theorem extnameOf_append_dot (n s : JStr) (hn : n ≠ []) (h : '.' ∉ s) :
    extnameOf (n ++ '.' :: s) = '.' :: s := by
  obtain ⟨c, cs, rfl⟩ : ∃ c cs, n = c :: cs := by
    cases n with
    | nil => exact absurd rfl hn
    | cons c cs => exact ⟨c, cs, rfl⟩
  rw [extnameOf, lastDotPos_append_dot _ s h]
  simp [List.drop_left]

/-! ## Claim theorems -/

/-- C1: for an image of original width `W` and crop target `T`, when
`W > T` the computed crop rectangle has `width = T`, `top = 0`,
`left = ⌊(W - T) / 2⌋` and height equal to the original height (in the
squoosh-only variant the crop branch keeps the original height exactly
when `keepHeight` is set, else the fallback `resize.height`); when
`W ≤ T` no crop rectangle is produced. -/
theorem crop_rect_geometry (W H T : Nat) (cfg : Config) :
    (T < W → computeCrop (some W) H T =
      some { left := (W - T) / 2, top := 0, width := T, height := H }) ∧
    (W ≤ T → computeCrop (some W) H T = none) ∧
    (cfg.cropOptions.enabled = true → cfg.cropOptions.width < W →
      (buildPreprocessOpts cfg W H).resize =
        some { enabled := true, width := cfg.cropOptions.width,
               height := if cfg.cropOptions.keepHeight then H
                         else cfg.resize.height,
               method := some "lanczos3", fitMethod := some "stretch",
               premultiply := some true, linearRGB := some true }) := by
  refine ⟨fun h => ?_, fun h => ?_, fun he hw => ?_⟩
  · simp [computeCrop, Nat.not_le.mpr h]
  · simp [computeCrop, h]
  · simp [buildPreprocessOpts, he, hw]

/-- Witness for C1 at the spec's concrete scenario: a 600×400 image with
target 338 is cropped to 338×400 at left offset 131; a 200-wide image is
not cropped; the squoosh crop branch for 600×400 under the script's
`CONFIG` keeps the original height 400. -/
theorem crop_rect_geometry_witness :
    computeCrop (some 600) 400 338 =
      some { left := 131, top := 0, width := 338, height := 400 } ∧
    computeCrop (some 200) 150 338 = none ∧
    (buildPreprocessOpts CONFIG 600 400).resize =
      some { enabled := true, width := 338, height := 400,
             method := some "lanczos3", fitMethod := some "stretch",
             premultiply := some true, linearRGB := some true } := by
  refine ⟨?_, ?_, ?_⟩
  · have h := (crop_rect_geometry 600 400 338 CONFIG).1 (by decide)
    simpa using h
  · exact (crop_rect_geometry 200 150 338 CONFIG).2.1 (by decide)
  · have h := (crop_rect_geometry 600 400 338 CONFIG).2.2 rfl (by decide)
    simpa [CONFIG] using h

/-- C2: a crop rectangle is computed, and applied, only when the
original width strictly exceeds the crop target; whenever the width is
at most the target (or unavailable) the cropping stage returns the
original bytes unmodified, and the squoosh-only variant falls back to
its plain configured resize options. -/
theorem crop_only_when_wider (meta : Buffer → Option Nat × Nat)
    (extract : Buffer → CropRect → Buffer) (enabled : Bool) (T : Nat)
    (b : Buffer) (cfg : Config) (W H : Nat) :
    (∀ W0, (meta b).1 = some W0 → W0 ≤ T →
      cropStage meta extract enabled T b = b) ∧
    ((meta b).1 = none → cropStage meta extract enabled T b = b) ∧
    (∀ mw mh r, computeCrop mw mh T = some r → ∃ W0, mw = some W0 ∧ T < W0) ∧
    (W ≤ cfg.cropOptions.width →
      (buildPreprocessOpts cfg W H).resize =
        (if cfg.resize.enabled then
          some { enabled := cfg.resize.enabled, width := cfg.resize.width,
                 height := cfg.resize.height, method := none, fitMethod := none,
                 premultiply := none, linearRGB := none }
         else none)) := by
  refine ⟨fun W0 h hle => ?_, fun h => ?_, fun mw mh r hr => ?_, fun hle => ?_⟩
  · cases enabled with
    | false => rfl
    | true => simp [cropStage, cropImage, computeCrop, h, hle]
  · cases enabled with
    | false => rfl
    | true => simp [cropStage, cropImage, computeCrop, h]
  · cases mw with
    | none => simp [computeCrop] at hr
    | some W0 =>
      refine ⟨W0, rfl, ?_⟩
      by_contra hc
      simp [computeCrop, Nat.le_of_not_lt hc] at hr
  · simp [buildPreprocessOpts, Nat.not_lt.mpr hle]

/-- Witness for C2: a 200-wide image against target 338 passes through
the sharp cropping stage unchanged, and the squoosh-only variant
installs only the plain configured 338×280 resize for it. -/
theorem crop_only_when_wider_witness :
    cropStage (fun _ => (some 200, 150)) (fun _ _ => []) true 338
      [1, 2, 3] = [1, 2, 3] ∧
    (buildPreprocessOpts CONFIG 200 150).resize =
      some { enabled := true, width := 338, height := 280, method := none,
             fitMethod := none, premultiply := none, linearRGB := none } := by
  obtain ⟨h1, _, _, h4⟩ := crop_only_when_wider (fun _ => (some 200, 150))
    (fun _ _ => []) true 338 [1, 2, 3] CONFIG 200 150
  refine ⟨h1 200 rfl (by decide), ?_⟩
  have h := h4 (by decide)
  simpa [CONFIG] using h

/-- C3: in the squoosh-only variant, when the original width exceeds the
crop target the operation submitted to the codec is a stretch resize of
the entire image to the target width (`fitMethod = "stretch"`), and the
submitted options are independent of the original width — hence of the
computed centered left offset, which is only printed; no extraction
request carrying that offset exists in the submitted options. -/
theorem squoosh_crop_is_stretch_resize (cfg : Config) (W W1 H : Nat)
    (he : cfg.cropOptions.enabled = true) (hw : cfg.cropOptions.width < W) :
    ((buildPreprocessOpts cfg W H).resize =
      some { enabled := true, width := cfg.cropOptions.width,
             height := if cfg.cropOptions.keepHeight then H
                       else cfg.resize.height,
             method := some "lanczos3", fitMethod := some "stretch",
             premultiply := some true, linearRGB := some true }) ∧
    (cfg.cropOptions.width < W1 →
      buildPreprocessOpts cfg W H = buildPreprocessOpts cfg W1 H) := by
  constructor
  · simp [buildPreprocessOpts, he, hw]
  · intro hw1
    simp [buildPreprocessOpts, he, hw, hw1]

/-- Witness for C3: under the script's `CONFIG`, a 600-wide and a
900-wide image of height 400 are submitted with identical stretch-resize
options to width 338 — the differing left offsets (131 and 281) appear
nowhere. -/
theorem squoosh_crop_is_stretch_resize_witness :
    (buildPreprocessOpts CONFIG 600 400).resize =
      some { enabled := true, width := 338, height := 400,
             method := some "lanczos3", fitMethod := some "stretch",
             premultiply := some true, linearRGB := some true } ∧
    buildPreprocessOpts CONFIG 600 400 = buildPreprocessOpts CONFIG 900 400 := by
  obtain ⟨h1, h2⟩ := squoosh_crop_is_stretch_resize CONFIG 600 900 400 rfl
    (by decide)
  exact ⟨by simpa [CONFIG] using h1, h2 (by decide)⟩

/-- Counterexample to C4: one file whose 10-byte read succeeds but whose
encode fails is counted as a failure (no success), yet its 10 input
bytes are included in the reported aggregate input total, which by the
claim should equal the per-success sum 0; dually, one file encoded to 4
bytes whose write fails contributes its 4 bytes to the aggregate output
total. -/
theorem byte_totals_counterexample :
    (compressImages [⟨some 10, false, false, none, false⟩]).success = 0 ∧
    (compressImages [⟨some 10, false, false, none, false⟩]).failed = 1 ∧
    (compressImages [⟨some 10, false, false, none, false⟩]).totalInputSize = 10 ∧
    specSuccessInputSum [⟨some 10, false, false, none, false⟩] = 0 ∧
    (compressImages [⟨some 10, false, false, some 4, true⟩]).success = 0 ∧
    (compressImages [⟨some 10, false, false, some 4, true⟩]).totalOutputSize = 4 ∧
    specSuccessOutputSum [⟨some 10, false, false, some 4, true⟩] = 0 := by
  decide

/-- C4 amended: the reported aggregate input total equals the sum of
input sizes over all files whose read succeeded — including files that
fail at a later stage — and the aggregate output total equals the sum of
encoded sizes over all files that reached a successful encode —
including files whose subsequent write fails.  (These coincide with the
claim's per-success sums exactly when no file fails after its read,
resp. after its encode.) -/
theorem byte_totals_amended (files : List FileModel) :
    (compressImages files).totalInputSize = (files.map inContrib).sum ∧
    (compressImages files).totalOutputSize = (files.map outContrib).sum := by
  constructor
  · simp [compressImages, foldl_processOne_inputSize]
  · simp [compressImages, foldl_processOne_outputSize]

/-- C5: for a batch in which exactly one file fails at some per-file
stage, every file is still processed and the final stats report N-1
successes and 1 failure; a single file's failure never aborts the batch. -/
theorem single_failure_isolation (files : List FileModel)
    (h : files.countP fileFails = 1) :
    (compressImages files).success + 1 = files.length ∧
    (compressImages files).failed = 1 ∧
    (compressImages files).total = files.length := by
  have hs : (compressImages files).success = files.countP fileSucceeds := by
    simp [compressImages, foldl_processOne_success]
  have hf : (compressImages files).failed = files.countP fileFails := by
    simp [compressImages, foldl_processOne_failed]
  have ht : (compressImages files).total = files.length := by
    simp [compressImages, foldl_processOne_total]
  have hc := countP_succeeds_add_fails files
  exact ⟨by omega, by omega, ht⟩

/-- Witness for C5: in a three-file batch whose middle file fails to
read, the remaining two files are processed and the stats report two
successes and one failure. -/
theorem single_failure_isolation_witness :
    (compressImages [⟨some 5, false, false, some 2, false⟩,
        ⟨none, false, false, none, false⟩,
        ⟨some 7, false, false, some 3, false⟩]).success + 1 =
      ([⟨some 5, false, false, some 2, false⟩,
        ⟨none, false, false, none, false⟩,
        ⟨some 7, false, false, some 3, false⟩] : List FileModel).length ∧
    (compressImages [⟨some 5, false, false, some 2, false⟩,
        ⟨none, false, false, none, false⟩,
        ⟨some 7, false, false, some 3, false⟩]).failed = 1 ∧
    (compressImages [⟨some 5, false, false, some 2, false⟩,
        ⟨none, false, false, none, false⟩,
        ⟨some 7, false, false, some 3, false⟩]).total =
      ([⟨some 5, false, false, some 2, false⟩,
        ⟨none, false, false, none, false⟩,
        ⟨some 7, false, false, some 3, false⟩] : List FileModel).length :=
  single_failure_isolation
    [⟨some 5, false, false, some 2, false⟩,
     ⟨none, false, false, none, false⟩,
     ⟨some 7, false, false, some 3, false⟩] (by decide)

/-- C9: the process exits 0 on normal completion — including runs that
discover zero matching images and runs in which some or all images fail
— and exits 1 exactly when the input directory does not exist (decided
before any discovery) or an unhandled error escapes the batch driver. -/
theorem exit_codes (w : World) :
    mainExit w = if w.inputDirExists ∧ ¬w.driverThrows then 0 else 1 := by
  obtain ⟨d, t, files⟩ := w
  cases d <;> cases t <;> cases files <;> simp [mainExit]

/-- C10: for every input file list the final stats satisfy
`total = N` and `success + failed = total`: each file's processing
increments exactly one of the two counters, exactly once. -/
theorem stats_partition (files : List FileModel) :
    (compressImages files).total = files.length ∧
    (compressImages files).success + (compressImages files).failed =
      (compressImages files).total := by
  have hs : (compressImages files).success = files.countP fileSucceeds := by
    simp [compressImages, foldl_processOne_success]
  have hf : (compressImages files).failed = files.countP fileFails := by
    simp [compressImages, foldl_processOne_failed]
  have ht : (compressImages files).total = files.length := by
    simp [compressImages, foldl_processOne_total]
  have hc := countP_succeeds_add_fails files
  exact ⟨ht, by omega⟩

/-- Counterexample to C6: with input size 0 the per-file reduction code
(src/index.js lines 244 / 554) performs the division anyway: for a
5-byte output it produces `-Infinity` and for a 0-byte output `NaN` —
neither a 0% figure nor a not-applicable marker. -/
theorem reduction_zero_counterexample :
    reductionDisplay 0 5 = JsNum.negInf ∧
    reductionDisplay 0 0 = JsNum.nan ∧
    reductionDisplay 0 5 ≠ JsNum.num 0 := by
  refine ⟨?_, ?_, ?_⟩ <;> decide

/-- C6 amended: for positive input size the displayed per-file reduction
is `(1 - outputSize/inputSize) * 100`, rounded to two decimals for
display; for input size 0 the per-file code still divides, displaying
`NaN` (output 0) or `-Infinity` (output > 0); the aggregate summary, by
contrast, prints its savings percentage only under a
`totalInputSize > 0` guard and omits the line otherwise. -/
theorem reduction_display_amended (inS outS : Nat) (s : RunStats) :
    (0 < inS → reductionDisplay inS outS =
      JsNum.num (toFixed2 ((1 - (outS : ℚ) / (inS : ℚ)) * 100))) ∧
    (inS = 0 → 0 < outS → reductionDisplay inS outS = JsNum.negInf) ∧
    (inS = 0 → outS = 0 → reductionDisplay inS outS = JsNum.nan) ∧
    (summarySavings s = none ↔ s.totalInputSize = 0) := by
  refine ⟨fun h => ?_, fun h h2 => ?_, fun h h2 => ?_, ?_⟩
  · have h0 : (0 : ℚ) < (inS : ℚ) := by exact_mod_cast h
    norm_num [reductionDisplay, reductionValue, jdiv, jsub, jmul, jsToFixed2,
      h0.ne']
  · subst h
    have h0 : (0 : ℚ) < (outS : ℚ) := by exact_mod_cast h2
    norm_num [reductionDisplay, reductionValue, jdiv, jsub, jmul, jsToFixed2,
      h0, h0.ne']
  · subst h; subst h2; decide
  · constructor
    · intro h
      by_contra hne
      have hp : 0 < s.totalInputSize := Nat.pos_of_ne_zero hne
      simp [summarySavings, hp] at h
    · intro h
      simp [summarySavings, h]

/-- Witness for C6 amended: a 4-byte input compressed to 1 byte displays
the finite figure `toFixed2 ((1 - 1/4) * 100)` (i.e. 75.00%), the
zero-input cases display `-Infinity` / `NaN`, and a stats record with
zero total input bytes suppresses the aggregate savings line. -/
theorem reduction_display_amended_witness :
    reductionDisplay 4 1 =
      JsNum.num (toFixed2 ((1 - ((1 : Nat) : ℚ) / ((4 : Nat) : ℚ)) * 100)) ∧
    reductionDisplay 0 5 = JsNum.negInf ∧
    reductionDisplay 0 0 = JsNum.nan ∧
    (summarySavings ⟨2, 0, 2, 0, 0⟩ = none ↔
      (⟨2, 0, 2, 0, 0⟩ : RunStats).totalInputSize = 0) :=
  ⟨(reduction_display_amended 4 1 ⟨2, 0, 2, 0, 0⟩).1 (by decide),
   (reduction_display_amended 0 5 ⟨2, 0, 2, 0, 0⟩).2.1 rfl (by decide),
   (reduction_display_amended 0 0 ⟨2, 0, 2, 0, 0⟩).2.2.1 rfl rfl,
   (reduction_display_amended 4 1 ⟨2, 0, 2, 0, 0⟩).2.2.2⟩

/-- C7: for every file path under the input root, the mapped output path
is a descendant of the output root, and its path relative to the output
root equals the input path's path relative to the input root — with
only the base name's extension rewritten when an override is given; the
statement is uniform in the directory depth `ds`, covering files
directly inside the root (`ds = []`) and arbitrarily deep files alike. -/
theorem output_path_mirror (I O ds : FsPath) (b : JStr) (fmt : JStr) :
    getOutputPath I O (I ++ (ds ++ [b])) none = O ++ (ds ++ [b]) ∧
    O <+: getOutputPath I O (I ++ (ds ++ [b])) none ∧
    getOutputPath I O (I ++ (ds ++ [b])) (some fmt) =
      O ++ (ds ++ [nameOf b ++ fmt]) ∧
    O <+: getOutputPath I O (I ++ (ds ++ [b])) (some fmt) := by
  have h1 := getOutputPath_concat I O ds b none
  have h2 := getOutputPath_concat I O ds b (some fmt)
  refine ⟨?_, ?_, ?_, ?_⟩
  · rw [h1, List.append_assoc]
  · rw [h1, List.append_assoc]; exact List.prefix_append O _
  · rw [h2, List.append_assoc]
  · rw [h2, List.append_assoc]; exact List.prefix_append O _

/-- Counterexample to C8: the non-empty extension override "webp"
(without a leading dot) applied to input file "photo.png" yields output
base name "photowebp", whose extension is empty rather than the
override. -/
theorem override_extension_counterexample :
    extnameOf ((getOutputPath [['j','u','m','p']] [['o','u','t']]
        [['j','u','m','p'], ['p','h','o','t','o','.','p','n','g']]
        (some ['w','e','b','p'])).getLastD []) = [] ∧
    (['w','e','b','p'] : JStr) ≠ [] ∧
    extnameOf ((getOutputPath [['j','u','m','p']] [['o','u','t']]
        [['j','u','m','p'], ['p','h','o','t','o','.','p','n','g']]
        (some ['w','e','b','p'])).getLastD []) ≠ ['w','e','b','p'] := by
  refine ⟨?_, ?_, ?_⟩ <;> decide

/-- C8 amended: for every extension override of the dotted form
`'.' :: s` with `s` free of further dots — the shape
`CONFIG.outputFormat` takes, e.g. ".webp" — and every input file whose
parsed name is non-empty, the mapped output path's extension equals the
override, regardless of the input file's original extension. -/
theorem override_extension_amended (I O ds : FsPath) (b s : JStr)
    (hn : nameOf b ≠ []) (hs : '.' ∉ s) :
    extnameOf ((getOutputPath I O (I ++ (ds ++ [b]))
      (some ('.' :: s))).getLastD []) = '.' :: s := by
  have h := getOutputPath_concat I O ds b (some ('.' :: s))
  rw [h, List.getLastD_concat]
  exact extnameOf_append_dot _ s hn hs

/-- Witness for C8 amended: overriding "photo.png" with ".webp" maps to
a path whose base name is "photo.webp", with extension ".webp". -/
theorem override_extension_amended_witness :
    extnameOf ((getOutputPath [['j','u','m','p']] [['o','u','t']]
      ([['j','u','m','p']] ++ ([] ++ [['p','h','o','t','o','.','p','n','g']]))
      (some ('.' :: ['w','e','b','p']))).getLastD []) =
      '.' :: ['w','e','b','p'] :=
  override_extension_amended [['j','u','m','p']] [['o','u','t']] []
    ['p','h','o','t','o','.','p','n','g'] ['w','e','b','p']
    (by decide) (by decide)
